import Mathlib

/-!
Shallow embedding of the Binokel score-keeping application (src/index.tsx).

The data model mirrors the TypeScript interfaces; the scoring engine
`calculateRoundScores` and the state-transition handlers (`handleStartGame`,
`handleAddRound`, `handleUndoRound`, `handleEndGame`, and the win-detection
effect) are translated function by function.  JavaScript number maps with the
idiom `m[p.id] || 0` are embedded as total functions `String → Int` (absent
keys read as 0); the `playerScores` object, which is built by assignment and
queried with an `!== undefined` test, is embedded as `String → Option Int`.
-/

namespace Binokel

structure Player where
  id : String
  name : String
  lifetimeScore : Int
  gamesPlayed : Nat
  wins : Nat
deriving Repr, DecidableEq

structure Team where
  name : String
  players : List Player
  score : Int
deriving Repr, DecidableEq

structure Teams where
  team1 : Team
  team2 : Team
deriving Repr, DecidableEq

structure RoundData where
  spielmacherId : String
  bidValue : Int
  meldValues : String → Int
  trickPoints : String → Int
  gameAbandoned : Bool

structure RoundCalculationResult where
  team1RoundScore : Int
  team2RoundScore : Int
  playerScores : String → Option Int
  reason : String

structure RoundHistoryItem where
  round : Nat
  team1RoundScore : Int
  team2RoundScore : Int
  team1Total : Int
  team2Total : Int
  spielmacherId : String
  spielmacherName : String
  bidValue : Int
  playerScores : String → Option Int

structure GameState where
  teams : Teams
  targetScore : Int
  roundHistory : List RoundHistoryItem

/-- The App component's state relevant to the core: the player ledger,
the optional active game, and the winner marker. -/
structure AppState where
  players : List Player
  activeGame : Option GameState
  winner : Option Team

/-- `team.players.reduce((sum, p) => sum + (meldValues[p.id] || 0), 0)` -/
def getTeamMeld (meldValues : String → Int) (team : Team) : Int :=
  team.players.foldl (fun sum p => sum + meldValues p.id) 0

/-- `team.players.reduce((sum, p) => sum + (trickPoints[p.id] || 0), 0)` -/
def getTeamTricks (trickPoints : String → Int) (team : Team) : Int :=
  team.players.foldl (fun sum p => sum + trickPoints p.id) 0

/-- `team.players.forEach(p => playerScores[p.id] = f(p))`:
object assignment in iteration order, later writes overriding earlier ones. -/
def assignAll (scores : String → Option Int) (ps : List Player) (f : Player → Int) :
    String → Option Int :=
  ps.foldl (fun m p => fun x => if x = p.id then some (f p) else m x) scores

/-- `team.players.reduce((sum, p) => sum + playerScores[p.id], 0)`
(every queried key has been assigned at the call sites). -/
def getTeamScoreFromPlayerScores (playerScores : String → Option Int) (team : Team) : Int :=
  team.players.foldl (fun sum p => sum + (playerScores p.id).getD 0) 0

/-- The repeated inline rule
`(trickPoints[p.id] || 0) === 0 ? 0 : (meldValues[p.id] || 0) + (trickPoints[p.id] || 0)`. -/
def normalPlayerScore (rd : RoundData) (p : Player) : Int :=
  if rd.trickPoints p.id = 0 then 0 else rd.meldValues p.id + rd.trickPoints p.id

/-- `teams.team1.players.some(p => p.id === spielmacherId)` -/
def spielmacherIsTeam1 (rd : RoundData) (teams : Teams) : Bool :=
  teams.team1.players.any (fun p => p.id == rd.spielmacherId)

/-- `teams[spielmacherTeamKey]`: team1 when the bidder is found there,
otherwise team2 (the source performs no membership validation). -/
def spielmacherTeamOf (rd : RoundData) (teams : Teams) : Team :=
  if spielmacherIsTeam1 rd teams then teams.team1 else teams.team2

/-- `teams[otherTeamKey]` -/
def otherTeamOf (rd : RoundData) (teams : Teams) : Team :=
  if spielmacherIsTeam1 rd teams then teams.team2 else teams.team1

/-- `spielmacherTeamMeld + spielmacherTeamTricks` -/
def spielmacherTeamTotal (rd : RoundData) (teams : Teams) : Int :=
  getTeamMeld rd.meldValues (spielmacherTeamOf rd teams) +
    getTeamTricks rd.trickPoints (spielmacherTeamOf rd teams)

/-- The `playerScores` object after the branch on `gameAbandoned` and on
`spielmacherTeamTotal >= bidValue`: the bidder's team is assigned first,
then the other team. -/
def roundPlayerScores (rd : RoundData) (teams : Teams) : String → Option Int :=
  let base : String → Option Int := fun _ => none
  if rd.gameAbandoned then
    assignAll (assignAll base (spielmacherTeamOf rd teams).players (fun _ => 0))
      (otherTeamOf rd teams).players (fun _ => 0)
  else
    let s1 :=
      if spielmacherTeamTotal rd teams ≥ rd.bidValue then
        assignAll base (spielmacherTeamOf rd teams).players (normalPlayerScore rd)
      else
        assignAll base (spielmacherTeamOf rd teams).players (fun _ => 0)
    assignAll s1 (otherTeamOf rd teams).players (normalPlayerScore rd)

/-- The `reason` string set in each branch. -/
def roundReason (rd : RoundData) (teams : Teams) : String :=
  if rd.gameAbandoned then "Spielmacher hat abgebrochen"
  else if spielmacherTeamTotal rd teams ≥ rd.bidValue then
    "Reizwert erreicht (" ++ toString (spielmacherTeamTotal rd teams) ++ " >= "
      ++ toString rd.bidValue ++ ")"
  else
    "Reizwert nicht erreicht (" ++ toString (spielmacherTeamTotal rd teams) ++ " < "
      ++ toString rd.bidValue ++ ")"

/-- `spielmacherTeamRoundScore` after the team-level penalty overrides:
`-bidValue` when abandoned, `-2 * bidValue` when the bid failed, otherwise the
sum of the bidder's team's player scores. -/
def spielmacherTeamRoundScore (rd : RoundData) (teams : Teams) : Int :=
  if rd.gameAbandoned then -rd.bidValue
  else if spielmacherTeamTotal rd teams < rd.bidValue then -2 * rd.bidValue
  else getTeamScoreFromPlayerScores (roundPlayerScores rd teams) (spielmacherTeamOf rd teams)

/-- `otherTeamRoundScore = getTeamScoreFromPlayerScores(otherTeam)` (never overridden). -/
def otherTeamRoundScore (rd : RoundData) (teams : Teams) : Int :=
  getTeamScoreFromPlayerScores (roundPlayerScores rd teams) (otherTeamOf rd teams)

/-- `calculateRoundScores(roundData, teams)` -/
def calculateRoundScores (rd : RoundData) (teams : Teams) : RoundCalculationResult :=
  { team1RoundScore :=
      if spielmacherIsTeam1 rd teams then spielmacherTeamRoundScore rd teams
      else otherTeamRoundScore rd teams
  , team2RoundScore :=
      if spielmacherIsTeam1 rd teams then otherTeamRoundScore rd teams
      else spielmacherTeamRoundScore rd teams
  , playerScores := roundPlayerScores rd teams
  , reason := roundReason rd teams }

/-- `handleStartGame(teams, targetScore)`: unconditionally activates a game
with the given teams and target and an empty history. -/
def handleStartGame (teams : Teams) (targetScore : Int) (s : AppState) : AppState :=
  { s with activeGame := some { teams := teams, targetScore := targetScore, roundHistory := [] } }

/-- `handleAddRound(roundData)` -/
def handleAddRound (rd : RoundData) (s : AppState) : AppState :=
  match s.activeGame with
  | none => s
  | some activeGame =>
    let result := calculateRoundScores rd activeGame.teams
    let newPlayers := s.players.map (fun p =>
      match result.playerScores p.id with
      | some v => { p with lifetimeScore := p.lifetimeScore + v }
      | none => p)
    let updatedTeam1 : Team :=
      { activeGame.teams.team1 with
          score := activeGame.teams.team1.score + result.team1RoundScore }
    let updatedTeam2 : Team :=
      { activeGame.teams.team2 with
          score := activeGame.teams.team2.score + result.team2RoundScore }
    let spielmacher :=
      (activeGame.teams.team1.players ++ activeGame.teams.team2.players).find?
        (fun p => p.id == rd.spielmacherId)
    let spielmacherName :=
      match spielmacher with
      | some p => if p.name = "" then "?" else p.name
      | none => "?"
    let newItem : RoundHistoryItem :=
      { round := activeGame.roundHistory.length + 1
      , team1RoundScore := result.team1RoundScore
      , team2RoundScore := result.team2RoundScore
      , team1Total := updatedTeam1.score
      , team2Total := updatedTeam2.score
      , spielmacherId := rd.spielmacherId
      , spielmacherName := spielmacherName
      , bidValue := rd.bidValue
      , playerScores := result.playerScores }
    { s with
        players := newPlayers
      , activeGame := some
          { activeGame with
              teams := { team1 := updatedTeam1, team2 := updatedTeam2 }
            , roundHistory := activeGame.roundHistory ++ [newItem] } }

/-- `handleUndoRound()` -/
def handleUndoRound (s : AppState) : AppState :=
  match s.activeGame with
  | none => s
  | some activeGame =>
    match activeGame.roundHistory.getLast? with
    | none => s
    | some lastRound =>
      let newPlayers := s.players.map (fun p =>
        let pointsToRevert := (lastRound.playerScores p.id).getD 0
        if pointsToRevert ≠ 0 then
          { p with lifetimeScore := p.lifetimeScore - pointsToRevert }
        else p)
      let newTeams : Teams :=
        { team1 :=
            { activeGame.teams.team1 with
                score := activeGame.teams.team1.score - lastRound.team1RoundScore }
        , team2 :=
            { activeGame.teams.team2 with
                score := activeGame.teams.team2.score - lastRound.team2RoundScore } }
      { s with
          players := newPlayers
        , activeGame := some
            { activeGame with teams := newTeams, roundHistory := activeGame.roundHistory.dropLast } }

/-- `handleEndGame(winnerTeam)`: records the completed game in the player
ledger and sets the winner marker. -/
def handleEndGame (winnerTeam : Team) (s : AppState) : AppState :=
  match s.activeGame with
  | none => s
  | some activeGame =>
    let loserTeam :=
      if activeGame.teams.team1.name == winnerTeam.name then activeGame.teams.team2
      else activeGame.teams.team1
    let newPlayers := s.players.map (fun p =>
      if winnerTeam.players.any (fun wp => wp.id == p.id) then
        { p with wins := p.wins + 1, gamesPlayed := p.gamesPlayed + 1 }
      else if loserTeam.players.any (fun lp => lp.id == p.id) then
        { p with gamesPlayed := p.gamesPlayed + 1 }
      else p)
    { s with winner := some winnerTeam, players := newPlayers }

/-- The win-detection `useEffect`: does nothing when there is no active game
or a winner is already set; otherwise checks team1 first, then team2. -/
def winEffect (s : AppState) : AppState :=
  match s.activeGame, s.winner with
  | some g, none =>
    if g.teams.team1.score ≥ g.targetScore then handleEndGame g.teams.team1 s
    else if g.teams.team2.score ≥ g.targetScore then handleEndGame g.teams.team2 s
    else s
  | _, _ => s

/-- A user-driven game-state operation: committing a round or undoing the last one. -/
inductive GameOp where
  | add : RoundData → GameOp
  | undo : GameOp

def applyOp (s : AppState) : GameOp → AppState
  | .add rd => handleAddRound rd s
  | .undo => handleUndoRound s

def applyOps (s : AppState) (ops : List GameOp) : AppState :=
  ops.foldl applyOp s

/-- Per-team sum of the recorded round deltas in a history. -/
def histSum1 (h : List RoundHistoryItem) : Int :=
  (h.map RoundHistoryItem.team1RoundScore).sum

def histSum2 (h : List RoundHistoryItem) : Int :=
  (h.map RoundHistoryItem.team2RoundScore).sum

/-- The spec's game-state invariant: each team's score is the sum of the
remaining per-round deltas, and round numbers are contiguous from 1. -/
def histInvariant (g : GameState) : Prop :=
  g.teams.team1.score = histSum1 g.roundHistory ∧
  g.teams.team2.score = histSum2 g.roundHistory ∧
  ∀ i : Nat, (hi : i < g.roundHistory.length) → (g.roundHistory.get ⟨i, hi⟩).round = i + 1

def appInvariant (s : AppState) : Prop :=
  ∀ g : GameState, s.activeGame = some g → histInvariant g

-- ### Concrete fixtures used to exercise the definitions

def pA : Player := { id := "a", name := "Anna", lifetimeScore := 0, gamesPlayed := 0, wins := 0 }

def pB : Player := { id := "b", name := "Ben", lifetimeScore := 0, gamesPlayed := 0, wins := 0 }

def pC : Player := { id := "c", name := "Cara", lifetimeScore := 0, gamesPlayed := 0, wins := 0 }

def pD : Player := { id := "d", name := "Dan", lifetimeScore := 0, gamesPlayed := 0, wins := 0 }

def demoTeams : Teams :=
  { team1 := { name := "Anna & Ben", players := [pA, pB], score := 0 }
  , team2 := { name := "Cara & Dan", players := [pC, pD], score := 0 } }

def demoMeld : String → Int :=
  fun x => if x = "a" then 20 else if x = "b" then 15 else if x = "c" then 30 else 0

def demoTricks : String → Int :=
  fun x => if x = "a" then 160 else if x = "c" then 80 else 0

/-- Bid made: team1 total is 20 + 15 + 160 = 195 ≥ 150, trick points sum to 240,
and player "b" has nonzero meld but zero tricks. -/
def demoMadeRd : RoundData :=
  { spielmacherId := "a", bidValue := 150, meldValues := demoMeld
  , trickPoints := demoTricks, gameAbandoned := false }

/-- Bid failed: team1 total 195 < 300. -/
def demoFailedRd : RoundData :=
  { spielmacherId := "a", bidValue := 300, meldValues := demoMeld
  , trickPoints := demoTricks, gameAbandoned := false }

/-- Abandoned round with bid 200. -/
def demoAbandonRd : RoundData :=
  { spielmacherId := "a", bidValue := 200, meldValues := demoMeld
  , trickPoints := demoTricks, gameAbandoned := true }

/-- A bidder id that belongs to neither team. -/
def ghostRd : RoundData :=
  { spielmacherId := "ghost", bidValue := 100, meldValues := demoMeld
  , trickPoints := demoTricks, gameAbandoned := true }

def baseApp : AppState := { players := [pA, pB, pC, pD], activeGame := none, winner := none }

def demoGame : GameState := { teams := demoTeams, targetScore := 1000, roundHistory := [] }

def demoApp : AppState :=
  { players := [pA, pB, pC, pD], activeGame := some demoGame, winner := none }

/-- A game whose team1 has already reached the target. -/
def demoHighGame : GameState :=
  { teams :=
      { team1 := { name := "Anna & Ben", players := [pA, pB], score := 1000 }
      , team2 := { name := "Cara & Dan", players := [pC, pD], score := 400 } }
  , targetScore := 1000, roundHistory := [] }

def demoHighApp : AppState :=
  { players := [pA, pB, pC, pD], activeGame := some demoHighGame, winner := none }

/-- Teams whose display names collide while all four player ids stay distinct. -/
def dupTeams : Teams :=
  { team1 := { name := "X & X", players := [pA, pB], score := 400 }
  , team2 := { name := "X & X", players := [pC, pD], score := 900 } }

def dupGame : GameState := { teams := dupTeams, targetScore := 1000, roundHistory := [] }

def dupApp : AppState :=
  { players := [pA, pB, pC, pD], activeGame := some dupGame, winner := none }

/-- A bid made by team2 (total 30 + 80 = 110 ≥ 100) that lifts team2 from 900
past the target of 1000. -/
def dupRd : RoundData :=
  { spielmacherId := "c", bidValue := 100, meldValues := demoMeld
  , trickPoints := demoTricks, gameAbandoned := false }

-- ### Helper lemmas about `assignAll` and the score folds

theorem assignAll_not_mem {m : String → Option Int} {ps : List Player} {f : Player → Int}
    {x : String} (h : ∀ p ∈ ps, p.id ≠ x) : assignAll m ps f x = m x := by
  induction ps generalizing m with
  | nil => rfl
  | cons p t ih =>
    have hx : x ≠ p.id := fun hx => h p (by simp) hx.symm
    have := ih (m := fun y => if y = p.id then some (f p) else m y)
      (fun q hq => h q (by simp [hq]))
    simp only [assignAll, List.foldl_cons] at *
    rw [this]
    simp [hx]

theorem assignAll_eq {m : String → Option Int} {ps : List Player} {f : Player → Int}
    {x : String} {v : Int} (hv : ∀ p ∈ ps, p.id = x → f p = v)
    (hmem : ∃ p ∈ ps, p.id = x) : assignAll m ps f x = some v := by
  induction ps generalizing m with
  | nil => exact absurd hmem (by simp)
  | cons p t ih =>
    by_cases hmem' : ∃ q ∈ t, q.id = x
    · have := ih (m := fun y => if y = p.id then some (f p) else m y)
        (fun q hq hq' => hv q (by simp [hq]) hq') hmem'
      simpa only [assignAll, List.foldl_cons] using this
    · obtain ⟨q, hq, hqx⟩ := hmem
      rcases List.mem_cons.mp hq with hq | hq
      · subst hq
        have hstep : ∀ r ∈ t, r.id ≠ x := by
          intro r hr hrx
          exact hmem' ⟨r, hr, hrx⟩
        simp only [assignAll, List.foldl_cons]
        rw [show (t.foldl (fun m p => fun y => if y = p.id then some (f p) else m y)
            (fun y => if y = q.id then some (f q) else m y)) x =
            (fun y => if y = q.id then some (f q) else m y) x from
          assignAll_not_mem hstep]
        simp [hqx, hv q (by simp) hqx]
      · exact absurd ⟨q, hq, hqx⟩ hmem'

theorem getTeamScore_eq_zero {scores : String → Option Int} {t : Team}
    (h : ∀ p ∈ t.players, scores p.id = some 0) :
    getTeamScoreFromPlayerScores scores t = 0 := by
  unfold getTeamScoreFromPlayerScores
  have : ∀ (l : List Player) (a : Int), (∀ p ∈ l, scores p.id = some 0) →
      l.foldl (fun sum p => sum + (scores p.id).getD 0) a = a := by
    intro l
    induction l with
    | nil => intro a _; rfl
    | cons p t ih =>
      intro a hl
      simp only [List.foldl_cons]
      rw [hl p (by simp)]
      simpa using ih (a + 0) (fun q hq => hl q (by simp [hq]))
  exact this t.players 0 h

theorem map_congr_mem {α β : Type} {f g : α → β} {l : List α}
    (h : ∀ x ∈ l, f x = g x) : l.map f = l.map g :=
  List.map_congr_left h

-- ### Branch lemmas for the scoring engine

theorem roundPlayerScores_abandoned {rd : RoundData} {teams : Teams}
    (hab : rd.gameAbandoned = true) {x : String}
    (hx : (∃ p ∈ (spielmacherTeamOf rd teams).players, p.id = x) ∨
          (∃ p ∈ (otherTeamOf rd teams).players, p.id = x)) :
    roundPlayerScores rd teams x = some 0 := by
  unfold roundPlayerScores
  rw [if_pos hab]
  by_cases ho : ∃ p ∈ (otherTeamOf rd teams).players, p.id = x
  · exact assignAll_eq (fun p _ _ => rfl) ho
  · rw [assignAll_not_mem (fun p hp hpx => ho ⟨p, hp, hpx⟩)]
    rcases hx with h1 | h2
    · exact assignAll_eq (fun p _ _ => rfl) h1
    · exact absurd h2 ho

theorem roundPlayerScores_made {rd : RoundData} {teams : Teams}
    (hab : rd.gameAbandoned = false) (hge : spielmacherTeamTotal rd teams ≥ rd.bidValue)
    {x : String}
    (hx : (∃ p ∈ (spielmacherTeamOf rd teams).players, p.id = x) ∨
          (∃ p ∈ (otherTeamOf rd teams).players, p.id = x)) :
    roundPlayerScores rd teams x =
      some (if rd.trickPoints x = 0 then 0 else rd.meldValues x + rd.trickPoints x) := by
  unfold roundPlayerScores
  rw [if_neg (by simp [hab]), if_pos hge]
  have hval : ∀ (l : List Player), ∀ p ∈ l, p.id = x →
      normalPlayerScore rd p =
        (if rd.trickPoints x = 0 then 0 else rd.meldValues x + rd.trickPoints x) := by
    intro l p _ hpx
    simp [normalPlayerScore, hpx]
  by_cases ho : ∃ p ∈ (otherTeamOf rd teams).players, p.id = x
  · exact assignAll_eq (hval _) ho
  · rw [assignAll_not_mem (fun p hp hpx => ho ⟨p, hp, hpx⟩)]
    rcases hx with h1 | h2
    · exact assignAll_eq (hval _) h1
    · exact absurd h2 ho

theorem roundPlayerScores_failed_spielmacher {rd : RoundData} {teams : Teams}
    (hab : rd.gameAbandoned = false) (hlt : spielmacherTeamTotal rd teams < rd.bidValue)
    {x : String}
    (hx : ∃ p ∈ (spielmacherTeamOf rd teams).players, p.id = x)
    (hother : ∀ p ∈ (otherTeamOf rd teams).players, p.id ≠ x) :
    roundPlayerScores rd teams x = some 0 := by
  unfold roundPlayerScores
  rw [if_neg (by simp [hab]), if_neg (not_le.mpr hlt)]
  rw [assignAll_not_mem hother]
  exact assignAll_eq (fun p _ _ => rfl) hx

theorem roundPlayerScores_failed_other {rd : RoundData} {teams : Teams}
    (hab : rd.gameAbandoned = false) (hlt : spielmacherTeamTotal rd teams < rd.bidValue)
    {x : String}
    (hx : ∃ p ∈ (otherTeamOf rd teams).players, p.id = x) :
    roundPlayerScores rd teams x =
      some (if rd.trickPoints x = 0 then 0 else rd.meldValues x + rd.trickPoints x) := by
  unfold roundPlayerScores
  rw [if_neg (by simp [hab]), if_neg (not_le.mpr hlt)]
  exact assignAll_eq (fun p _ hpx => by simp [normalPlayerScore, hpx]) hx

theorem spielmacherTeamRoundScore_abandoned {rd : RoundData} {teams : Teams}
    (hab : rd.gameAbandoned = true) :
    spielmacherTeamRoundScore rd teams = -rd.bidValue := by
  unfold spielmacherTeamRoundScore
  rw [if_pos hab]

theorem spielmacherTeamRoundScore_failed {rd : RoundData} {teams : Teams}
    (hab : rd.gameAbandoned = false) (hlt : spielmacherTeamTotal rd teams < rd.bidValue) :
    spielmacherTeamRoundScore rd teams = -2 * rd.bidValue := by
  unfold spielmacherTeamRoundScore
  rw [if_neg (by simp [hab]), if_pos hlt]

theorem spielmacherTeamRoundScore_made {rd : RoundData} {teams : Teams}
    (hab : rd.gameAbandoned = false) (hge : spielmacherTeamTotal rd teams ≥ rd.bidValue) :
    spielmacherTeamRoundScore rd teams =
      getTeamScoreFromPlayerScores (roundPlayerScores rd teams) (spielmacherTeamOf rd teams) := by
  unfold spielmacherTeamRoundScore
  rw [if_neg (by simp [hab]), if_neg (not_lt.mpr hge)]

theorem otherTeamRoundScore_abandoned {rd : RoundData} {teams : Teams}
    (hab : rd.gameAbandoned = true) :
    otherTeamRoundScore rd teams = 0 := by
  unfold otherTeamRoundScore
  exact getTeamScore_eq_zero
    (fun p hp => roundPlayerScores_abandoned hab (Or.inr ⟨p, hp, rfl⟩))

/-- Membership in the two rosters transfers to the bidder-team/other-team view. -/
theorem mem_spiel_or_other {rd : RoundData} {teams : Teams} {p : Player}
    (hp : p ∈ teams.team1.players ++ teams.team2.players) :
    (∃ q ∈ (spielmacherTeamOf rd teams).players, q.id = p.id) ∨
    (∃ q ∈ (otherTeamOf rd teams).players, q.id = p.id) := by
  rcases List.mem_append.mp hp with h1 | h2
  · cases hflag : spielmacherIsTeam1 rd teams
    · exact Or.inr ⟨p, by simp [otherTeamOf, hflag, h1], rfl⟩
    · exact Or.inl ⟨p, by simp [spielmacherTeamOf, hflag, h1], rfl⟩
  · cases hflag : spielmacherIsTeam1 rd teams
    · exact Or.inl ⟨p, by simp [spielmacherTeamOf, hflag, h2], rfl⟩
    · exact Or.inr ⟨p, by simp [otherTeamOf, hflag, h2], rfl⟩

-- ### Claim theorems

/-- C1: with the abandonment flag set, every player on both teams scores 0 for
the round, the bidder's team's round delta is exactly minus the bid value, the
other team's round delta is exactly 0 regardless of the meld and trick values
in the input, and the rationale is the fixed abandonment string. -/
theorem abandoned_round_scoring (rd : RoundData) (teams : Teams)
    (hab : rd.gameAbandoned = true)
    (hmem : spielmacherIsTeam1 rd teams = true ∨
            teams.team2.players.any (fun p => p.id == rd.spielmacherId) = true) :
    (∀ p ∈ teams.team1.players ++ teams.team2.players,
        (calculateRoundScores rd teams).playerScores p.id = some 0) ∧
    (spielmacherIsTeam1 rd teams = true →
        (calculateRoundScores rd teams).team1RoundScore = -rd.bidValue ∧
        (calculateRoundScores rd teams).team2RoundScore = 0) ∧
    (spielmacherIsTeam1 rd teams = false →
        (calculateRoundScores rd teams).team2RoundScore = -rd.bidValue ∧
        (calculateRoundScores rd teams).team1RoundScore = 0) ∧
    (calculateRoundScores rd teams).reason = "Spielmacher hat abgebrochen" := by
  refine ⟨?_, ?_, ?_, ?_⟩
  · intro p hp
    exact roundPlayerScores_abandoned hab (mem_spiel_or_other hp)
  · intro hflag
    constructor
    · show (if spielmacherIsTeam1 rd teams then spielmacherTeamRoundScore rd teams
            else otherTeamRoundScore rd teams) = -rd.bidValue
      rw [if_pos hflag]
      exact spielmacherTeamRoundScore_abandoned hab
    · show (if spielmacherIsTeam1 rd teams then otherTeamRoundScore rd teams
            else spielmacherTeamRoundScore rd teams) = 0
      rw [if_pos hflag]
      exact otherTeamRoundScore_abandoned hab
  · intro hflag
    constructor
    · show (if spielmacherIsTeam1 rd teams then otherTeamRoundScore rd teams
            else spielmacherTeamRoundScore rd teams) = -rd.bidValue
      rw [if_neg (by simp [hflag])]
      exact spielmacherTeamRoundScore_abandoned hab
    · show (if spielmacherIsTeam1 rd teams then spielmacherTeamRoundScore rd teams
            else otherTeamRoundScore rd teams) = 0
      rw [if_neg (by simp [hflag])]
      exact otherTeamRoundScore_abandoned hab
  · show roundReason rd teams = _
    unfold roundReason
    rw [if_pos hab]

/-- C1 witness: Scenario C at bid 200 with nonzero meld and trick entries. -/
theorem abandoned_round_scoring_witness :
    (calculateRoundScores demoAbandonRd demoTeams).playerScores "c" = some 0 ∧
    (calculateRoundScores demoAbandonRd demoTeams).team1RoundScore = -200 ∧
    (calculateRoundScores demoAbandonRd demoTeams).team2RoundScore = 0 ∧
    (calculateRoundScores demoAbandonRd demoTeams).reason = "Spielmacher hat abgebrochen" := by
  have h := abandoned_round_scoring demoAbandonRd demoTeams rfl (Or.inl (by decide))
  exact ⟨h.1 pC (by decide), (h.2.1 (by decide)).1, (h.2.1 (by decide)).2, h.2.2.2⟩

/-- C2: when the round is not abandoned and the bidder's team's meld plus trick
total is strictly below the bid value, every bidder's-team player scores 0, the
bidder's team's round delta is exactly minus twice the bid value independent of
the points accumulated, and the other team's round delta is the sum of its
players' round scores. -/
theorem failed_bid_scoring (rd : RoundData) (teams : Teams)
    (hab : rd.gameAbandoned = false)
    (hmem : spielmacherIsTeam1 rd teams = true ∨
            teams.team2.players.any (fun p => p.id == rd.spielmacherId) = true)
    (hdisj : ∀ p ∈ teams.team1.players, ∀ q ∈ teams.team2.players, p.id ≠ q.id)
    (hlt : spielmacherTeamTotal rd teams < rd.bidValue) :
    (∀ p ∈ (spielmacherTeamOf rd teams).players,
        (calculateRoundScores rd teams).playerScores p.id = some 0) ∧
    (spielmacherIsTeam1 rd teams = true →
        (calculateRoundScores rd teams).team1RoundScore = -2 * rd.bidValue ∧
        (calculateRoundScores rd teams).team2RoundScore =
          getTeamScoreFromPlayerScores (calculateRoundScores rd teams).playerScores
            teams.team2) ∧
    (spielmacherIsTeam1 rd teams = false →
        (calculateRoundScores rd teams).team2RoundScore = -2 * rd.bidValue ∧
        (calculateRoundScores rd teams).team1RoundScore =
          getTeamScoreFromPlayerScores (calculateRoundScores rd teams).playerScores
            teams.team1) := by
  refine ⟨?_, ?_, ?_⟩
  · intro p hp
    apply roundPlayerScores_failed_spielmacher hab hlt ⟨p, hp, rfl⟩
    intro q hq
    cases hflag : spielmacherIsTeam1 rd teams
    · simp [spielmacherTeamOf, otherTeamOf, hflag] at hp hq
      exact hdisj q hq p hp
    · simp [spielmacherTeamOf, otherTeamOf, hflag] at hp hq
      exact fun he => hdisj p hp q hq he.symm
  · intro hflag
    constructor
    · show (if spielmacherIsTeam1 rd teams then spielmacherTeamRoundScore rd teams
            else otherTeamRoundScore rd teams) = -2 * rd.bidValue
      rw [if_pos hflag]
      exact spielmacherTeamRoundScore_failed hab hlt
    · show (if spielmacherIsTeam1 rd teams then otherTeamRoundScore rd teams
            else spielmacherTeamRoundScore rd teams) = _
      rw [if_pos hflag]
      unfold otherTeamRoundScore
      rw [show otherTeamOf rd teams = teams.team2 by simp [otherTeamOf, hflag]]
      rfl
  · intro hflag
    constructor
    · show (if spielmacherIsTeam1 rd teams then otherTeamRoundScore rd teams
            else spielmacherTeamRoundScore rd teams) = -2 * rd.bidValue
      rw [if_neg (by simp [hflag])]
      exact spielmacherTeamRoundScore_failed hab hlt
    · show (if spielmacherIsTeam1 rd teams then spielmacherTeamRoundScore rd teams
            else otherTeamRoundScore rd teams) = _
      rw [if_neg (by simp [hflag])]
      unfold otherTeamRoundScore
      rw [show otherTeamOf rd teams = teams.team1 by simp [otherTeamOf, hflag]]
      rfl

/-- C2 witness: Scenario B shape — bid 300, bidder's team total 195 < 300, so the
bid team's delta is −600 regardless of the 195 earned, and the other team keeps
the sum of its players' scores (110). -/
theorem failed_bid_scoring_witness :
    (calculateRoundScores demoFailedRd demoTeams).playerScores "a" = some 0 ∧
    (calculateRoundScores demoFailedRd demoTeams).team1RoundScore = -600 ∧
    (calculateRoundScores demoFailedRd demoTeams).team2RoundScore = 110 := by
  have h := failed_bid_scoring demoFailedRd demoTeams rfl (Or.inl (by decide))
    (by decide) (by decide)
  refine ⟨h.1 pA (by decide), (h.2.1 (by decide)).1, ?_⟩
  exact ((h.2.1 (by decide)).2).trans (by decide)

/-- C3: when the round is not abandoned and the bidder's team's total meets the
bid, every player on both teams is scored by the same rule — zero trick points
force a round score of 0 even with nonzero meld, otherwise meld plus tricks —
and the bidder's team's round delta is the sum of its players' round scores. -/
theorem made_bid_scoring (rd : RoundData) (teams : Teams)
    (hab : rd.gameAbandoned = false)
    (hmem : spielmacherIsTeam1 rd teams = true ∨
            teams.team2.players.any (fun p => p.id == rd.spielmacherId) = true)
    (hge : spielmacherTeamTotal rd teams ≥ rd.bidValue) :
    (∀ p ∈ teams.team1.players ++ teams.team2.players,
        (calculateRoundScores rd teams).playerScores p.id =
          some (if rd.trickPoints p.id = 0 then 0
                else rd.meldValues p.id + rd.trickPoints p.id)) ∧
    (spielmacherIsTeam1 rd teams = true →
        (calculateRoundScores rd teams).team1RoundScore =
          getTeamScoreFromPlayerScores (calculateRoundScores rd teams).playerScores
            teams.team1) ∧
    (spielmacherIsTeam1 rd teams = false →
        (calculateRoundScores rd teams).team2RoundScore =
          getTeamScoreFromPlayerScores (calculateRoundScores rd teams).playerScores
            teams.team2) := by
  refine ⟨?_, ?_, ?_⟩
  · intro p hp
    exact roundPlayerScores_made hab hge (mem_spiel_or_other hp)
  · intro hflag
    show (if spielmacherIsTeam1 rd teams then spielmacherTeamRoundScore rd teams
          else otherTeamRoundScore rd teams) = _
    rw [if_pos hflag, spielmacherTeamRoundScore_made hab hge,
      show spielmacherTeamOf rd teams = teams.team1 by simp [spielmacherTeamOf, hflag]]
    rfl
  · intro hflag
    show (if spielmacherIsTeam1 rd teams then otherTeamRoundScore rd teams
          else spielmacherTeamRoundScore rd teams) = _
    rw [if_neg (by simp [hflag]), spielmacherTeamRoundScore_made hab hge,
      show spielmacherTeamOf rd teams = teams.team2 by simp [spielmacherTeamOf, hflag]]
    rfl

/-- C3 witness: bid 150 made with total 195; player "b" has meld 15 but zero
tricks and scores 0, player "a" scores 20 + 160 = 180, and the bid team's delta
is the sum of its players' scores. -/
theorem made_bid_scoring_witness :
    (calculateRoundScores demoMadeRd demoTeams).playerScores "b" = some 0 ∧
    (calculateRoundScores demoMadeRd demoTeams).playerScores "a" = some 180 ∧
    (calculateRoundScores demoMadeRd demoTeams).team1RoundScore =
      getTeamScoreFromPlayerScores (calculateRoundScores demoMadeRd demoTeams).playerScores
        demoTeams.team1 := by
  have h := made_bid_scoring demoMadeRd demoTeams rfl (Or.inl (by decide)) (by decide)
  exact ⟨(h.1 pB (by decide)).trans (by decide), (h.1 pA (by decide)).trans (by decide),
    h.2.1 (by decide)⟩

/-- C4: on any active game, `handleAddRound` followed by `handleUndoRound`
restores both teams' cumulative scores and the history length exactly; and
`handleUndoRound` on a state with no active game or an empty round history is a
no-op that leaves the state unchanged. -/
theorem addRound_undo_inverse (s : AppState) (g : GameState) (rd : RoundData)
    (h : s.activeGame = some g) :
    ((handleUndoRound (handleAddRound rd s)).activeGame.map
        (fun g' => (g'.teams.team1.score, g'.teams.team2.score, g'.roundHistory.length)))
      = some (g.teams.team1.score, g.teams.team2.score, g.roundHistory.length) ∧
    (∀ s' : AppState,
        (s'.activeGame = none ∨
          ∃ g' : GameState, s'.activeGame = some g' ∧ g'.roundHistory = []) →
        handleUndoRound s' = s') := by
  constructor
  · simp [handleAddRound, handleUndoRound, h, List.getLast?_concat, List.dropLast_concat,
      add_sub_cancel_right]
  · rintro s' (hnone | ⟨g', hg', hhist⟩)
    · simp [handleUndoRound, hnone]
    · simp [handleUndoRound, hg', hhist]

/-- C4 witness: one round added to a fresh demo game and undone brings both
scores back to 0 and the history back to empty; undo on the game-less base
state is the identity. -/
theorem addRound_undo_inverse_witness :
    ((handleUndoRound (handleAddRound demoMadeRd demoApp)).activeGame.map
        (fun g' => (g'.teams.team1.score, g'.teams.team2.score, g'.roundHistory.length)))
      = some (0, 0, 0) ∧ handleUndoRound baseApp = baseApp := by
  have h := addRound_undo_inverse demoApp demoGame demoMadeRd rfl
  exact ⟨h.1, h.2 baseApp (Or.inl rfl)⟩

theorem applyOp_invariant {s : AppState} (hs : appInvariant s) (op : GameOp) :
    appInvariant (applyOp s op) := by
  cases op with
  | add rd =>
    intro g' hg'
    simp only [applyOp] at hg'
    cases hag : s.activeGame with
    | none => simp [handleAddRound, hag] at hg'
    | some g =>
      obtain ⟨i1, i2, ir⟩ := hs g hag
      simp [handleAddRound, hag] at hg'
      subst hg'
      refine ⟨?_, ?_, ?_⟩
      · simpa [histSum1] using i1
      · simpa [histSum2] using i2
      · intro i hi
        simp only [List.get_eq_getElem]
        simp only [List.length_append, List.length_cons, List.length_nil] at hi
        rcases Nat.lt_or_ge i g.roundHistory.length with hlt | hge
        · rw [List.getElem_append_left hlt]
          simpa only [List.get_eq_getElem] using ir i hlt
        · have hieq : i = g.roundHistory.length := by omega
          subst hieq
          rw [List.getElem_concat_length _ _ _ rfl (by simp)]
  | undo =>
    intro g' hg'
    simp only [applyOp] at hg'
    cases hag : s.activeGame with
    | none => simp [handleUndoRound, hag] at hg'
    | some g =>
      rcases List.eq_nil_or_concat' g.roundHistory with hnil | ⟨L, b, hLb⟩
      · simp [handleUndoRound, hag, hnil] at hg'
        subst hg'
        exact hs g hag
      · obtain ⟨i1, i2, ir⟩ := hs g hag
        simp [handleUndoRound, hag, hLb, List.getLast?_concat, List.dropLast_concat] at hg'
        subst hg'
        rw [hLb] at i1 i2
        refine ⟨?_, ?_, ?_⟩
        · show g.teams.team1.score - b.team1RoundScore = histSum1 L
          simp only [histSum1, List.map_append, List.sum_append, List.map_cons,
            List.map_nil, List.sum_cons, List.sum_nil] at i1 ⊢
          omega
        · show g.teams.team2.score - b.team2RoundScore = histSum2 L
          simp only [histSum2, List.map_append, List.sum_append, List.map_cons,
            List.map_nil, List.sum_cons, List.sum_nil] at i2 ⊢
          omega
        · intro i hi
          have hi2 : i < L.length := hi
          have hi' : i < g.roundHistory.length := by rw [hLb]; simp; omega
          have hr := ir i hi'
          simp only [List.get_eq_getElem] at hr
          have e1 := List.getElem_of_eq hLb hi'
          rw [List.getElem_append_left hi2] at e1
          rw [e1] at hr
          simpa only [List.get_eq_getElem] using hr

/-- C5: from a freshly started game (both team scores 0, empty history), after
any finite sequence of add-round and undo operations, each team's cumulative
score is the sum of its round deltas over the remaining history entries, and
the entries' round numbers are contiguous starting at 1 (entry i carries round
number i + 1, so each new entry's number equals the history length at
insertion). -/
theorem score_history_invariant (s0 : AppState) (teams : Teams) (ts : Int)
    (ops : List GameOp) (h1 : teams.team1.score = 0) (h2 : teams.team2.score = 0) :
    appInvariant (applyOps (handleStartGame teams ts s0) ops) := by
  have hstart : appInvariant (handleStartGame teams ts s0) := by
    intro g hg
    simp [handleStartGame] at hg
    subst hg
    refine ⟨by simpa [histSum1] using h1, by simpa [histSum2] using h2, ?_⟩
    intro i hi
    simp at hi
  have main : ∀ (l : List GameOp) (s : AppState),
      appInvariant s → appInvariant (applyOps s l) := by
    intro l
    induction l with
    | nil => exact fun s hs => hs
    | cons op t ih => exact fun s hs => ih _ (applyOp_invariant hs op)
  exact main ops _ hstart

/-- C5 witness: the invariant evaluated on the state reached by starting the
demo game and committing one round. -/
theorem score_history_invariant_witness :
    ((applyOps (handleStartGame demoTeams 1000 baseApp) [GameOp.add demoMadeRd]).activeGame).elim
      True histInvariant := by
  have h := score_history_invariant baseApp demoTeams 1000 [GameOp.add demoMadeRd] rfl rfl
  cases hg : (applyOps (handleStartGame demoTeams 1000 baseApp)
      [GameOp.add demoMadeRd]).activeGame with
  | none => simp
  | some g => simpa using h g hg

/-- C8: in a game with no winner yet, the win-detection effect selects team1
whenever team1's score has reached the target — in particular when both teams
have reached it in the same round (first-checked priority) — and selects team2
only when team1 has not reached the target but team2 has. -/
theorem win_selection (s : AppState) (g : GameState)
    (hg : s.activeGame = some g) (hw : s.winner = none) :
    (g.teams.team1.score ≥ g.targetScore → g.teams.team2.score ≥ g.targetScore →
        (winEffect s).winner = some g.teams.team1) ∧
    (g.teams.team1.score ≥ g.targetScore →
        (winEffect s).winner = some g.teams.team1) ∧
    (g.teams.team1.score < g.targetScore → g.teams.team2.score ≥ g.targetScore →
        (winEffect s).winner = some g.teams.team2) := by
  have hend : ∀ w : Team, (handleEndGame w s).winner = some w := by
    intro w
    simp [handleEndGame, hg]
  have hred : winEffect s =
      if g.teams.team1.score ≥ g.targetScore then handleEndGame g.teams.team1 s
      else if g.teams.team2.score ≥ g.targetScore then handleEndGame g.teams.team2 s
      else s := by
    simp [winEffect, hg, hw]
  refine ⟨fun h1 _ => ?_, fun h1 => ?_, fun h1 h2 => ?_⟩
  · rw [hred, if_pos h1]; exact hend _
  · rw [hred, if_pos h1]; exact hend _
  · rw [hred, if_neg (not_le.mpr h1), if_pos h2]; exact hend _

/-- C8 witness: team1 at 1000 with target 1000 is selected as winner. -/
theorem win_selection_witness :
    (winEffect demoHighApp).winner = some demoHighGame.teams.team1 := by
  exact (win_selection demoHighApp demoHighGame rfl rfl).2.1 (by decide)

/-- C9 (amended): when an in-progress game's score reaches the target, the win
effect records the completion exactly once — a team1 win always credits every
participating player's gamesPlayed and the winners' wins; a team2 win does so
provided the two teams' display names differ, because the code resolves the
losing team by name — and the Won state is terminal: the effect is inert once
a winner is set, and undoing a round never changes the winner marker or any
player's gamesPlayed or wins. -/
theorem completion_once_and_undo_immune (s : AppState) (g : GameState)
    (hg : s.activeGame = some g) (hw : s.winner = none) :
    (g.teams.team1.score ≥ g.targetScore →
        (winEffect s).winner = some g.teams.team1 ∧
        (winEffect s).players = s.players.map (fun p =>
          if g.teams.team1.players.any (fun wp => wp.id == p.id) then
            { p with wins := p.wins + 1, gamesPlayed := p.gamesPlayed + 1 }
          else if g.teams.team2.players.any (fun lp => lp.id == p.id) then
            { p with gamesPlayed := p.gamesPlayed + 1 }
          else p)) ∧
    (g.teams.team1.name ≠ g.teams.team2.name →
        g.teams.team1.score < g.targetScore → g.teams.team2.score ≥ g.targetScore →
        (winEffect s).winner = some g.teams.team2 ∧
        (winEffect s).players = s.players.map (fun p =>
          if g.teams.team2.players.any (fun wp => wp.id == p.id) then
            { p with wins := p.wins + 1, gamesPlayed := p.gamesPlayed + 1 }
          else if g.teams.team1.players.any (fun lp => lp.id == p.id) then
            { p with gamesPlayed := p.gamesPlayed + 1 }
          else p)) ∧
    (∀ s' : AppState, ∀ w : Team, s'.winner = some w → winEffect s' = s') ∧
    (∀ s' : AppState,
        (handleUndoRound s').winner = s'.winner ∧
        (handleUndoRound s').players.map (fun p => (p.id, p.name, p.gamesPlayed, p.wins)) =
          s'.players.map (fun p => (p.id, p.name, p.gamesPlayed, p.wins))) := by
  have hred : winEffect s =
      if g.teams.team1.score ≥ g.targetScore then handleEndGame g.teams.team1 s
      else if g.teams.team2.score ≥ g.targetScore then handleEndGame g.teams.team2 s
      else s := by
    simp [winEffect, hg, hw]
  refine ⟨fun h1 => ?_, fun hname h1 h2 => ?_, fun s' w hw' => ?_, fun s' => ?_⟩
  · rw [hred, if_pos h1]
    constructor
    · simp [handleEndGame, hg]
    · simp [handleEndGame, hg]
  · rw [hred, if_neg (not_le.mpr h1), if_pos h2]
    constructor
    · simp [handleEndGame, hg]
    · simp [handleEndGame, hg, hname]
  · cases hag : s'.activeGame <;> simp [winEffect, hag, hw']
  · rcases s' with ⟨ps, ag, w⟩
    cases ag with
    | none => exact ⟨rfl, rfl⟩
    | some g'' =>
      cases hL : g''.roundHistory.getLast? with
      | none => refine ⟨by simp [handleUndoRound, hL], by simp [handleUndoRound, hL]⟩
      | some last =>
        refine ⟨by simp [handleUndoRound, hL], ?_⟩
        simp only [handleUndoRound, hL]
        rw [List.map_map]
        apply map_congr_mem
        intro p _
        by_cases hz : (last.playerScores p.id).getD 0 ≠ 0 <;>
          simp [Function.comp, hz]

/-- C9 counterexample: the claim as stated fails when the two teams share a
display name even though all four player ids are distinct. An addRound lifts
team2 from 900 to 1010 past the target 1000 and the effect crowns team2, but
`handleEndGame` resolves the losing team by name to the winner itself, so
team1's players "a" and "b" — participants — keep gamesPlayed = 0. -/
theorem completion_equal_names_counterexample :
    ((winEffect (handleAddRound dupRd dupApp)).winner.map
        (fun t => t.players.map Player.id)) = some ["c", "d"] ∧
    ((winEffect (handleAddRound dupRd dupApp)).players.map
        (fun p => (p.id, p.gamesPlayed, p.wins)))
      = [("a", 0, 0), ("b", 0, 0), ("c", 1, 1), ("d", 1, 1)] := by
  exact ⟨by decide, by decide⟩

/-- C9 witness: on the demo game (distinct team names) already at the target,
the effect crowns team1 and updates the ledger; running the effect again is
the identity, and an undo leaves the winner marker unchanged. -/
theorem completion_once_and_undo_immune_witness :
    (winEffect demoHighApp).winner = some demoHighGame.teams.team1 ∧
    winEffect (winEffect demoHighApp) = winEffect demoHighApp ∧
    (handleUndoRound demoHighApp).winner = none := by
  have h := completion_once_and_undo_immune demoHighApp demoHighGame rfl rfl
  have h1 := (h.1 (by decide)).1
  exact ⟨h1, h.2.2.1 _ _ h1, ((h.2.2.2 demoHighApp).1).trans rfl⟩

/-- C10: committing a round changes each ledger entry's lifetime score by
exactly that player's entry in the computed playerScores mapping and nothing
else; in abandoned or failed rounds every bidder's-team player's entry is
`some 0`, a `some 0` entry leaves the ledger record literally unchanged, and
yet the bidder's team's cumulative score drops by the bid value (abandoned) or
twice the bid value (failed). -/
theorem addRound_player_frame (s : AppState) (g : GameState) (rd : RoundData)
    (hg : s.activeGame = some g) :
    (handleAddRound rd s).players = s.players.map (fun p =>
        { p with lifetimeScore := p.lifetimeScore +
            ((calculateRoundScores rd g.teams).playerScores p.id).getD 0 }) ∧
    ((∀ p ∈ g.teams.team1.players, ∀ q ∈ g.teams.team2.players, p.id ≠ q.id) →
      (rd.gameAbandoned = true ∨
        (rd.gameAbandoned = false ∧ spielmacherTeamTotal rd g.teams < rd.bidValue)) →
      (∀ p ∈ (spielmacherTeamOf rd g.teams).players,
          (calculateRoundScores rd g.teams).playerScores p.id = some 0) ∧
      (∀ p : Player, (calculateRoundScores rd g.teams).playerScores p.id = some 0 →
          { p with lifetimeScore := p.lifetimeScore +
              ((calculateRoundScores rd g.teams).playerScores p.id).getD 0 } = p) ∧
      (spielmacherIsTeam1 rd g.teams = true →
          ((handleAddRound rd s).activeGame.map (fun g' => g'.teams.team1.score)) =
            some (g.teams.team1.score -
              (if rd.gameAbandoned then rd.bidValue else 2 * rd.bidValue))) ∧
      (spielmacherIsTeam1 rd g.teams = false →
          ((handleAddRound rd s).activeGame.map (fun g' => g'.teams.team2.score)) =
            some (g.teams.team2.score -
              (if rd.gameAbandoned then rd.bidValue else 2 * rd.bidValue)))) := by
  have hpenalty : (rd.gameAbandoned = true ∨
        (rd.gameAbandoned = false ∧ spielmacherTeamTotal rd g.teams < rd.bidValue)) →
      spielmacherTeamRoundScore rd g.teams =
        -(if rd.gameAbandoned then rd.bidValue else 2 * rd.bidValue) := by
    rintro (hab | ⟨hab, hlt⟩)
    · rw [spielmacherTeamRoundScore_abandoned hab, if_pos hab]
    · rw [spielmacherTeamRoundScore_failed hab hlt, if_neg (by simp [hab])]
      ring
  constructor
  · have hplayers : (handleAddRound rd s).players = s.players.map (fun p =>
        match (calculateRoundScores rd g.teams).playerScores p.id with
        | some v => { p with lifetimeScore := p.lifetimeScore + v }
        | none => p) := by
      simp only [handleAddRound, hg]
    rw [hplayers]
    apply map_congr_mem
    intro p _
    cases hsc : (calculateRoundScores rd g.teams).playerScores p.id with
    | none => cases p; simp [hsc]
    | some v => simp [hsc]
  · intro hdisj hpen
    refine ⟨?_, ?_, ?_, ?_⟩
    · intro p hp
      rcases hpen with hab | ⟨hab, hlt⟩
      · exact roundPlayerScores_abandoned hab (Or.inl ⟨p, hp, rfl⟩)
      · apply roundPlayerScores_failed_spielmacher hab hlt ⟨p, hp, rfl⟩
        intro q hq
        cases hflag : spielmacherIsTeam1 rd g.teams
        · simp [spielmacherTeamOf, otherTeamOf, hflag] at hp hq
          exact hdisj q hq p hp
        · simp [spielmacherTeamOf, otherTeamOf, hflag] at hp hq
          exact fun he => hdisj p hp q hq he.symm
    · intro p hzero
      rw [hzero]
      cases p
      simp
    · intro hflag
      have hscore : (calculateRoundScores rd g.teams).team1RoundScore =
          -(if rd.gameAbandoned then rd.bidValue else 2 * rd.bidValue) := by
        show (if spielmacherIsTeam1 rd g.teams then spielmacherTeamRoundScore rd g.teams
              else otherTeamRoundScore rd g.teams) = _
        rw [if_pos hflag]
        exact hpenalty hpen
      simp [handleAddRound, hg, hscore, sub_eq_add_neg]
    · intro hflag
      have hscore : (calculateRoundScores rd g.teams).team2RoundScore =
          -(if rd.gameAbandoned then rd.bidValue else 2 * rd.bidValue) := by
        show (if spielmacherIsTeam1 rd g.teams then otherTeamRoundScore rd g.teams
              else spielmacherTeamRoundScore rd g.teams) = _
        rw [if_neg (by simp [hflag])]
        exact hpenalty hpen
      simp [handleAddRound, hg, hscore, sub_eq_add_neg]

/-- C10 witness: the failed bid at 300 leaves every bidder's-team ledger entry
untouched while team1's cumulative score drops to −600; the other team's
player "c" gains exactly their playerScores entry (110). -/
theorem addRound_player_frame_witness :
    (handleAddRound demoFailedRd demoApp).players =
      [pA, pB, { pC with lifetimeScore := 110 }, pD] ∧
    (calculateRoundScores demoFailedRd demoGame.teams).playerScores "a" = some 0 ∧
    ((handleAddRound demoFailedRd demoApp).activeGame.map (fun g' => g'.teams.team1.score)) =
      some (-600) := by
  have h := addRound_player_frame demoApp demoGame demoFailedRd rfl
  have h2 := h.2 (by decide) (Or.inr ⟨rfl, by decide⟩)
  exact ⟨h.1.trans (by decide), h2.1 pA (by decide), (h2.2.2.1 (by decide)).trans (by decide)⟩

-- ### C6 and C7: the validation the spec promises does not exist in the code

/-- C6 counterexample: for a bidder id ("ghost") on neither team, the engine
does not fail; it returns an ordinary round result — team2 is silently treated
as the bidder's team and, in this abandoned round, penalized by the bid. -/
theorem bidder_not_member_counterexample :
    (calculateRoundScores ghostRd demoTeams).reason = "Spielmacher hat abgebrochen" ∧
    (calculateRoundScores ghostRd demoTeams).team2RoundScore = -100 ∧
    (calculateRoundScores ghostRd demoTeams).team1RoundScore = 0 := by
  refine ⟨rfl, by decide, by decide⟩

/-- C6 amended: `calculateRoundScores` performs no bidder-membership check:
whenever the bidder id is not on team1's roster — including when it is on
neither roster — team2 is treated as the bidder's team and a normal round
result is produced (for an abandoned round, team2 receives the bid penalty). -/
theorem bidder_not_member_defaults_team2 (rd : RoundData) (teams : Teams)
    (h1 : spielmacherIsTeam1 rd teams = false)
    (h2 : teams.team2.players.any (fun p => p.id == rd.spielmacherId) = false) :
    spielmacherTeamOf rd teams = teams.team2 ∧
    (rd.gameAbandoned = true →
        (calculateRoundScores rd teams).team2RoundScore = -rd.bidValue) := by
  constructor
  · simp [spielmacherTeamOf, h1]
  · intro hab
    show (if spielmacherIsTeam1 rd teams then otherTeamRoundScore rd teams
          else spielmacherTeamRoundScore rd teams) = -rd.bidValue
    rw [if_neg (by simp [h1])]
    exact spielmacherTeamRoundScore_abandoned hab

/-- C6 amended witness: the ghost bidder instantiation. -/
theorem bidder_not_member_defaults_team2_witness :
    spielmacherTeamOf ghostRd demoTeams = demoTeams.team2 ∧
    (calculateRoundScores ghostRd demoTeams).team2RoundScore = -100 := by
  have h := bidder_not_member_defaults_team2 ghostRd demoTeams (by decide) (by decide)
  exact ⟨h.1, h.2 rfl⟩

/-- C7 counterexample: a request with a non-positive target score (0) is not
rejected: `handleStartGame` activates the game with target 0. -/
theorem startGame_no_rejection_counterexample :
    (handleStartGame demoTeams 0 baseApp).activeGame ≠ none ∧
    (handleStartGame demoTeams 0 baseApp).activeGame =
      some { teams := demoTeams, targetScore := 0, roundHistory := [] } := by
  exact ⟨by simp [handleStartGame], rfl⟩

/-- C7 amended: `handleStartGame` performs no validation at all: even for a
non-positive target score (and likewise for any team composition) it activates
a game with the given teams, the given target, and an empty round history,
leaving the player ledger and winner marker untouched; team scores are
whatever the caller supplies (the team-selection screen supplies 0). -/
theorem startGame_no_validation (teams : Teams) (ts : Int) (s : AppState)
    (hts : ts ≤ 0) :
    (handleStartGame teams ts s).activeGame =
      some { teams := teams, targetScore := ts, roundHistory := [] } ∧
    (handleStartGame teams ts s).players = s.players ∧
    (handleStartGame teams ts s).winner = s.winner := by
  exact ⟨rfl, rfl, rfl⟩

/-- C7 amended witness: target 0. -/
theorem startGame_no_validation_witness :
    (handleStartGame demoTeams 0 baseApp).activeGame =
      some { teams := demoTeams, targetScore := 0, roundHistory := [] } ∧
    (handleStartGame demoTeams 0 baseApp).players = baseApp.players ∧
    (handleStartGame demoTeams 0 baseApp).winner = baseApp.winner := by
  exact startGame_no_validation demoTeams 0 baseApp (by decide)

end Binokel
